import Mathlib

/-!
Verification of the cluster client configuration layer of this repository.

The repository holds two historical revisions of the same component:
`src/redis/src/cluster_client.rs` (namespace `RedisRev` below) and
`src/src/cluster_client.rs` (namespace `TlsRev` below, embedded with the
`tls` feature enabled; namespace `SrcPlainRev` embeds the same file with
the `tls` feature disabled, i.e. with all `cfg(feature = "tls")` items
removed). The shared data model (`ConnectionAddr`, `ConnectionInfo`,
`RedisError`) lives outside the repository excerpt; it is embedded here
with exactly the structure the excerpt relies on: an address is a plain
TCP host/port, a TLS host/port carrying optional certificate material, or
a unix socket path, and a `ConnectionInfo` carries the address plus the
embedded database / username / password triple.
-/

namespace RedisCluster

/-- TLS trusted-CA material (`crate::tls::Certificate`). The excerpt only
clones and compares this data, so it is embedded as opaque comparable
data wrapping a string. -/
structure Certificate where
  data : String
deriving DecidableEq, Repr

/-- TLS client identity material (`crate::tls::RedisIdentity`); opaque
comparable data, as for `Certificate`. -/
structure RedisIdentity where
  data : String
deriving DecidableEq, Repr

/-- The address forms of `ConnectionAddr`: routable TCP, routable TCP with
TLS fields (this fork's `TcpTls` carries the per-node `ca_cert` and
`identity` material that `ClusterClient::build` pattern-matches on), and a
unix domain socket path. -/
inductive ConnectionAddr where
  | Tcp (host : String) (port : Nat)
  | TcpTls (host : String) (port : Nat) (ca_cert : Option Certificate) (identity : Option RedisIdentity)
  | Unix (path : String)
deriving DecidableEq, Repr

/-- Whether an address is the unix-socket form (the `if let
ConnectionAddr::Unix(_)` test in both revisions of `build`). -/
def ConnectionAddr.isUnixAddr : ConnectionAddr → Bool
  | .Unix _ => true
  | _ => false

/-- The redis-specific part of `ConnectionInfo` (`RedisConnectionInfo`):
database index plus the optional credentials embedded in the node URL. -/
structure RedisConnectionInfo where
  db : Int
  username : Option String
  password : Option String
deriving DecidableEq, Repr

/-- One parsed candidate node (`ConnectionInfo`): address and embedded
redis connection data. -/
structure ConnectionInfo where
  addr : ConnectionAddr
  redis : RedisConnectionInfo
deriving DecidableEq, Repr

/-- Error kinds relevant to this layer (a fragment of `ErrorKind`). -/
inductive ErrorKind where
  | InvalidClientConfig
  | ResponseError
  | AuthenticationFailed
deriving DecidableEq, Repr

/-- A `RedisError` as this layer distinguishes them: the kind and the
detail message. -/
structure RedisError where
  kind : ErrorKind
  detail : String
deriving DecidableEq, Repr

/-- The `RedisResult` alias. -/
abbrev RedisResult (α : Type) := Except RedisError α

/-- The error returned for a unix-socket node in both revisions of
`build`. -/
def unixSocketError : RedisError :=
  { kind := .InvalidClientConfig,
    detail := "This library cannot use unix socket because Redis's cluster command returns only cluster's IP and port." }

/-- The error for nodes that disagree on the embedded password. -/
def differentPasswordError : RedisError :=
  { kind := .InvalidClientConfig,
    detail := "Cannot use different password among initial nodes." }

/-- The error for nodes that disagree on the embedded username. -/
def differentUsernameError : RedisError :=
  { kind := .InvalidClientConfig,
    detail := "Cannot use different username among initial nodes." }

/-- The error for TLS nodes that disagree on the trusted-CA material
(`src/src` revision, `tls` feature). -/
def differentCaCertError : RedisError :=
  { kind := .InvalidClientConfig,
    detail := "Cannot use different ca_cert among initial nodes." }

/-- The error for TLS nodes that disagree on the client identity material
(`src/src` revision, `tls` feature). -/
def differentIdentityError : RedisError :=
  { kind := .InvalidClientConfig,
    detail := "Cannot use different identity among initial nodes." }

/-- Rust's `collect::<Result<Vec<_>, _>>()` over the per-address
conversion results in `ClusterClientBuilder::new`: the whole list on
success, otherwise the first conversion error. -/
def collectResults : List (RedisResult ConnectionInfo) → RedisResult (List ConnectionInfo)
  | [] => .ok []
  | .error e :: _ => .error e
  | .ok x :: rest =>
    match collectResults rest with
    | .error e => .error e
    | .ok xs => .ok (x :: xs)

/-- One credential-consistency step of the `build` loop, shared verbatim by
the password and username blocks of both revisions (and, generic in the
value type, by the `ca_cert` / `identity` blocks of the TLS revision):
when no explicit override is set, index 0 adopts the node value as the
running candidate, and every later index compares the node value with the
running candidate, failing with `err` on mismatch. -/
def credStep {α : Type} (overrideSet : Bool) (index : Nat)
    (running nodeVal : Option α) (err : RedisError) [DecidableEq α] :
    RedisResult (Option α) :=
  if overrideSet then .ok running
  else if index = 0 then .ok nodeVal
  else if running ≠ nodeVal then .error err
  else .ok running

namespace RedisRev

/-- Builder state of `src/redis/src/cluster_client.rs`. -/
structure ClusterClientBuilder where
  initial_nodes : RedisResult (List ConnectionInfo)
  read_from_replicas : Bool
  username : Option String
  password : Option String
deriving Repr

/-- `ClusterClientBuilder::new`: collect the per-address conversion
results (failure is recorded, not raised) and default every override. -/
def ClusterClientBuilder.new (initial_nodes : List (RedisResult ConnectionInfo)) :
    ClusterClientBuilder :=
  { initial_nodes := collectResults initial_nodes
    read_from_replicas := false
    username := none
    password := none }

/-- The finalized `ClusterClient` of the `src/redis` revision. -/
structure ClusterClient where
  initial_nodes : List ConnectionInfo
  read_from_replicas : Bool
  username : Option String
  password : Option String
deriving DecidableEq, Repr

/-- The node loop of `ClusterClientBuilder::build`: walks the parsed nodes
carrying the enumeration index and the running credential candidates
(`connection_info_password`, `connection_info_username`), rejecting unix
sockets and inconsistent credentials, and returns the pushed node list
with the final candidates. -/
def buildGo (pw us : Option String) :
    Nat → Option String → Option String → List ConnectionInfo →
    RedisResult (List ConnectionInfo × Option String × Option String)
  | _, cip, ciu, [] => .ok ([], cip, ciu)
  | index, cip, ciu, info :: rest =>
    if info.addr.isUnixAddr then .error unixSocketError
    else
      match credStep pw.isSome index cip info.redis.password differentPasswordError with
      | .error e => .error e
      | .ok cip2 =>
        match credStep us.isSome index ciu info.redis.username differentUsernameError with
        | .error e => .error e
        | .ok ciu2 =>
          match buildGo pw us (index + 1) cip2 ciu2 rest with
          | .error e => .error e
          | .ok (ns, p, u) => .ok (info :: ns, p, u)

/-- `ClusterClientBuilder::build`: propagate a recorded parse failure
verbatim, run the node loop from index 0 with empty candidates, and
assemble the client, each override winning over the corresponding
candidate via `Option::or`. -/
def ClusterClientBuilder.build (self : ClusterClientBuilder) : RedisResult ClusterClient :=
  match self.initial_nodes with
  | .error e => .error e
  | .ok initial_nodes =>
    match buildGo self.password self.username 0 none none initial_nodes with
    | .error e => .error e
    | .ok (nodes, connection_info_password, connection_info_username) =>
      .ok { initial_nodes := nodes
            read_from_replicas := self.read_from_replicas
            username := self.username.or connection_info_username
            password := self.password.or connection_info_password }

/-- The `password` setter (named `setPassword` here because the field
projection takes the source name). -/
def ClusterClientBuilder.setPassword (self : ClusterClientBuilder) (password : String) :
    ClusterClientBuilder :=
  { self with password := some password }

/-- The `username` setter. -/
def ClusterClientBuilder.setUsername (self : ClusterClientBuilder) (username : String) :
    ClusterClientBuilder :=
  { self with username := some username }

/-- The `read_from_replicas` setter (sets the flag to true). -/
def ClusterClientBuilder.setReadFromReplicas (self : ClusterClientBuilder) :
    ClusterClientBuilder :=
  { self with read_from_replicas := true }

/-- `ClusterClient::new`: build with default overrides. -/
def ClusterClient.new (initial_nodes : List (RedisResult ConnectionInfo)) :
    RedisResult ClusterClient :=
  (ClusterClientBuilder.new initial_nodes).build

/-- The `Clone` implementation of `ClusterClient` before its `unwrap()`:
`ClusterClient::new(self.initial_nodes.clone())`, where
`into_connection_info` on an already-parsed `ConnectionInfo` is the
identity wrapped in `Ok`. The source unwraps this result, so a `.error`
here is a panic of the source. -/
def ClusterClient.cloneResult (self : ClusterClient) : RedisResult ClusterClient :=
  ClusterClient.new (self.initial_nodes.map Except.ok)

end RedisRev

/-- The TLS material of an address when the address is the `TcpTls` form:
`some` of the node's (optional) `ca_cert` for a `TcpTls` address, `none`
otherwise. Mirrors the `if let ConnectionAddr::TcpTls { ref ca_cert, .. }`
test of the `src/src` revision. -/
def tlsCaOfAddr : ConnectionAddr → Option (Option Certificate)
  | .TcpTls _ _ c _ => some c
  | _ => none

/-- The client-identity material of a `TcpTls` address, as `tlsCaOfAddr`. -/
def tlsIdentityOfAddr : ConnectionAddr → Option (Option RedisIdentity)
  | .TcpTls _ _ _ idm => some idm
  | _ => none

/-- One TLS-material consistency step of the `src/src` `build` loop: when
the override is set the node is ignored entirely; otherwise a node whose
address carries no TLS fields is skipped, and a node with TLS fields goes
through the same adopt-at-index-0 / compare-later step as the
credentials. -/
def tlsMaterialStep {α : Type} [DecidableEq α] (overrideSet : Bool) (index : Nat)
    (running : Option α) (nodeVal : Option (Option α)) (err : RedisError) :
    RedisResult (Option α) :=
  if overrideSet then .ok running
  else
    match nodeVal with
    | none => .ok running
    | some v => credStep false index running v err

namespace TlsRev

/-- Builder state of `src/src/cluster_client.rs` with the `tls` feature
enabled. -/
structure ClusterClientBuilder where
  initial_nodes : RedisResult (List ConnectionInfo)
  readonly : Bool
  username : Option String
  password : Option String
  ca_cert : Option Certificate
  identity : Option RedisIdentity
deriving Repr

/-- `ClusterClientBuilder::new` of the `src/src` revision. -/
def ClusterClientBuilder.new (initial_nodes : List (RedisResult ConnectionInfo)) :
    ClusterClientBuilder :=
  { initial_nodes := collectResults initial_nodes
    readonly := false
    username := none
    password := none
    ca_cert := none
    identity := none }

/-- The finalized `ClusterClient` of the `src/src` revision (`tls`
feature enabled). -/
structure ClusterClient where
  initial_nodes : List ConnectionInfo
  readonly : Bool
  username : Option String
  password : Option String
  ca_cert : Option Certificate
  identity : Option RedisIdentity
deriving DecidableEq, Repr

/-- The node loop of `ClusterClient::build` of the `src/src` revision:
the unix check, the password and username blocks, then the `ca_cert` and
`identity` blocks which run only for `TcpTls` addresses. -/
def buildGo (pw us : Option String) (ca : Option Certificate) (idm : Option RedisIdentity) :
    Nat → Option String → Option String → Option Certificate → Option RedisIdentity →
    List ConnectionInfo →
    RedisResult (List ConnectionInfo × Option String × Option String ×
      Option Certificate × Option RedisIdentity)
  | _, cip, ciu, cic, cii, [] => .ok ([], cip, ciu, cic, cii)
  | index, cip, ciu, cic, cii, info :: rest =>
    if info.addr.isUnixAddr then .error unixSocketError
    else
      match credStep pw.isSome index cip info.redis.password differentPasswordError with
      | .error e => .error e
      | .ok cip2 =>
        match credStep us.isSome index ciu info.redis.username differentUsernameError with
        | .error e => .error e
        | .ok ciu2 =>
          match tlsMaterialStep ca.isSome index cic (tlsCaOfAddr info.addr) differentCaCertError with
          | .error e => .error e
          | .ok cic2 =>
            match tlsMaterialStep idm.isSome index cii (tlsIdentityOfAddr info.addr) differentIdentityError with
            | .error e => .error e
            | .ok cii2 =>
              match buildGo pw us ca idm (index + 1) cip2 ciu2 cic2 cii2 rest with
              | .error e => .error e
              | .ok (ns, p, u, c, idn) => .ok (info :: ns, p, u, c, idn)

/-- `ClusterClient::build` of the `src/src` revision with `tls`. -/
def ClusterClientBuilder.build (builder : ClusterClientBuilder) : RedisResult ClusterClient :=
  match builder.initial_nodes with
  | .error e => .error e
  | .ok initial_nodes =>
    match buildGo builder.password builder.username builder.ca_cert builder.identity
        0 none none none none initial_nodes with
    | .error e => .error e
    | .ok (nodes, cip, ciu, cic, cii) =>
      .ok { initial_nodes := nodes
            readonly := builder.readonly
            username := builder.username.or ciu
            password := builder.password.or cip
            ca_cert := builder.ca_cert.or cic
            identity := builder.identity.or cii }

/-- The `password` setter of the `src/src` revision. -/
def ClusterClientBuilder.setPassword (self : ClusterClientBuilder) (password : String) :
    ClusterClientBuilder :=
  { self with password := some password }

/-- The `username` setter of the `src/src` revision. -/
def ClusterClientBuilder.setUsername (self : ClusterClientBuilder) (username : String) :
    ClusterClientBuilder :=
  { self with username := some username }

end TlsRev

namespace SrcPlainRev

/-- Builder state of `src/src/cluster_client.rs` with the `tls` feature
disabled: every `cfg(feature = "tls")` item removed. -/
structure ClusterClientBuilder where
  initial_nodes : RedisResult (List ConnectionInfo)
  readonly : Bool
  username : Option String
  password : Option String
deriving Repr

/-- The finalized `ClusterClient` of the `src/src` revision without
`tls`. -/
structure ClusterClient where
  initial_nodes : List ConnectionInfo
  readonly : Bool
  username : Option String
  password : Option String
deriving DecidableEq, Repr

/-- The node loop of `ClusterClient::build` of the `src/src` revision
without `tls`: unix check, password block, username block. -/
def buildGo (pw us : Option String) :
    Nat → Option String → Option String → List ConnectionInfo →
    RedisResult (List ConnectionInfo × Option String × Option String)
  | _, cip, ciu, [] => .ok ([], cip, ciu)
  | index, cip, ciu, info :: rest =>
    if info.addr.isUnixAddr then .error unixSocketError
    else
      match credStep pw.isSome index cip info.redis.password differentPasswordError with
      | .error e => .error e
      | .ok cip2 =>
        match credStep us.isSome index ciu info.redis.username differentUsernameError with
        | .error e => .error e
        | .ok ciu2 =>
          match buildGo pw us (index + 1) cip2 ciu2 rest with
          | .error e => .error e
          | .ok (ns, p, u) => .ok (info :: ns, p, u)

/-- `ClusterClient::build` of the `src/src` revision without `tls`. -/
def ClusterClientBuilder.build (builder : ClusterClientBuilder) : RedisResult ClusterClient :=
  match builder.initial_nodes with
  | .error e => .error e
  | .ok initial_nodes =>
    match buildGo builder.password builder.username 0 none none initial_nodes with
    | .error e => .error e
    | .ok (nodes, cip, ciu) =>
      .ok { initial_nodes := nodes
            readonly := builder.readonly
            username := builder.username.or ciu
            password := builder.password.or cip }

end SrcPlainRev

/-- Concrete node: no credentials, TCP host A. -/
def nPlainA : ConnectionInfo :=
  { addr := .Tcp "hostA" 6379, redis := { db := 0, username := none, password := none } }

/-- Concrete node: no credentials, TCP host B. -/
def nPlainB : ConnectionInfo :=
  { addr := .Tcp "hostB" 6378, redis := { db := 0, username := none, password := none } }

/-- Concrete node: password `pw1`, TCP host A. -/
def nPw1 : ConnectionInfo :=
  { addr := .Tcp "hostA" 6379, redis := { db := 0, username := none, password := some "pw1" } }

/-- Concrete node: password `pw2`, TCP host B. -/
def nPw2 : ConnectionInfo :=
  { addr := .Tcp "hostB" 6378, redis := { db := 0, username := none, password := some "pw2" } }

/-- Concrete node: password `pw1`, TCP host B (agrees with `nPw1`). -/
def nPw1b : ConnectionInfo :=
  { addr := .Tcp "hostB" 6378, redis := { db := 0, username := none, password := some "pw1" } }

/-- Concrete node: a unix socket with no credentials. -/
def nUnix : ConnectionInfo :=
  { addr := .Unix "/tmp/redis.sock", redis := { db := 0, username := none, password := none } }

/-- Concrete node: username `u1`, password `p`, host A. -/
def nU1P : ConnectionInfo :=
  { addr := .Tcp "hostA" 6379, redis := { db := 0, username := some "u1", password := some "p" } }

/-- Concrete node: username `u2`, password `p`, host B. -/
def nU2P : ConnectionInfo :=
  { addr := .Tcp "hostB" 6378, redis := { db := 0, username := some "u2", password := some "p" } }

/-- Concrete node: username `u1`, password `q`, host C. -/
def nU1Q : ConnectionInfo :=
  { addr := .Tcp "hostC" 6377, redis := { db := 0, username := some "u1", password := some "q" } }

/-- Concrete node: username `u1`, password `p1`, host A. -/
def nU1P1 : ConnectionInfo :=
  { addr := .Tcp "hostA" 6379, redis := { db := 0, username := some "u1", password := some "p1" } }

/-- Concrete node: username `u2`, password `p2`, host B. -/
def nU2P2 : ConnectionInfo :=
  { addr := .Tcp "hostB" 6378, redis := { db := 0, username := some "u2", password := some "p2" } }

/-- Concrete TLS-revision node: plain TCP, no credentials (carries no TLS
fields). -/
def tNodeTcp : ConnectionInfo :=
  { addr := .Tcp "hostA" 6379, redis := { db := 0, username := none, password := none } }

/-- Concrete TLS-revision node: `TcpTls` with a present trusted-CA
certificate and no identity, no credentials. -/
def tNodeTlsCa : ConnectionInfo :=
  { addr := .TcpTls "hostB" 6378 (some { data := "CA-PEM" }) none,
    redis := { db := 0, username := none, password := none } }

/-- Concrete TLS-revision node: `TcpTls` with absent material, no
credentials. -/
def tNodeTlsNone : ConnectionInfo :=
  { addr := .TcpTls "hostC" 6377 none none,
    redis := { db := 0, username := none, password := none } }

/-- A concrete address-conversion failure, as `into_connection_info`
produces for an unparsable URL. -/
def parseFailure : RedisError :=
  { kind := .InvalidClientConfig, detail := "Redis URL did not parse" }

/-- The client that building over the single node `nPlainA` yields. -/
def builtPlainA : RedisRev.ClusterClient :=
  { initial_nodes := [nPlainA], read_from_replicas := false,
    username := none, password := none }

/-- The client that building over `[nPw1, nPw1b]` with no overrides
yields. -/
def builtPw1Pair : RedisRev.ClusterClient :=
  { initial_nodes := [nPw1, nPw1b], read_from_replicas := false,
    username := none, password := some "pw1" }

/-- The client that building over `[nPw1, nPw2]` with the explicit
password override `secret` yields. -/
def builtSecretPair : RedisRev.ClusterClient :=
  { initial_nodes := [nPw1, nPw2], read_from_replicas := false,
    username := none, password := some "secret" }

/-- A `credStep` with the override set leaves the running candidate
untouched and cannot fail. -/
theorem credStep_override {α : Type} [DecidableEq α] (i : Nat) (r v : Option α)
    (e : RedisError) : credStep true i r v e = .ok r := rfl

/-- A `credStep` with no override adopts the node value at index 0. -/
theorem credStep_zero {α : Type} [DecidableEq α] (r v : Option α) (e : RedisError) :
    credStep false 0 r v e = .ok v := rfl

/-- A `credStep` with no override at a positive index compares the node
value against the running candidate. -/
theorem credStep_succ {α : Type} [DecidableEq α] (i : Nat) (r v : Option α)
    (e : RedisError) :
    credStep false (i + 1) r v e = if r = v then .ok r else .error e := by
  simp only [credStep, if_neg (Nat.succ_ne_zero i), ne_eq, ite_not, Bool.false_eq_true,
    if_false]

/-- A failing `credStep` fails with exactly the error it was given. -/
theorem credStep_error {α : Type} [DecidableEq α] {b : Bool} {i : Nat}
    {r v : Option α} {err e : RedisError} (h : credStep b i r v err = .error e) :
    e = err := by
  unfold credStep at h
  split at h
  · exact absurd h (by simp)
  · split at h
    · exact absurd h (by simp)
    · split at h
      · exact (Except.error.injEq _ _).mp h.symm
      · exact absurd h (by simp)

namespace RedisRev

/-- A successful node loop returns exactly the input nodes, in order, and
certifies that none of them is a unix socket. -/
theorem buildGo_ok_nodes {pw us : Option String} :
    ∀ (L : List ConnectionInfo) (i : Nat) (cip ciu : Option String)
      (ns : List ConnectionInfo) (p u : Option String),
      buildGo pw us i cip ciu L = .ok (ns, p, u) →
      ns = L ∧ ∀ x ∈ L, x.addr.isUnixAddr = false := by
  intro L
  induction L with
  | nil =>
    intro i cip ciu ns p u h
    simp only [buildGo, Except.ok.injEq, Prod.mk.injEq] at h
    exact ⟨h.1.symm, by simp⟩
  | cons a rest ih =>
    intro i cip ciu ns p u h
    simp only [buildGo] at h
    split at h
    · exact absurd h (by simp)
    next hu =>
      split at h
      · exact absurd h (by simp)
      next cip2 hp =>
        split at h
        · exact absurd h (by simp)
        next ciu2 hq =>
          split at h
          · exact absurd h (by simp)
          next ns2 p2 u2 hr =>
            simp only [Except.ok.injEq, Prod.mk.injEq] at h
            obtain ⟨hns, -, -⟩ := h
            obtain ⟨hrest, hall⟩ := ih _ _ _ _ _ _ hr
            subst hns
            refine ⟨by rw [hrest], ?_⟩
            intro x hx
            rcases List.mem_cons.mp hx with hx | hx
            · subst hx; exact (Bool.not_eq_true _) ▸ hu
            · exact hall x hx

/-- Tail success: past index 0, if no node is a unix socket and each
credential either has its override set or agrees with the running
candidate on every node, the loop succeeds and keeps both candidates. -/
theorem buildGo_tail_ok {pw us : Option String} :
    ∀ (L : List ConnectionInfo) (i : Nat) (cip ciu : Option String),
      (∀ x ∈ L, x.addr.isUnixAddr = false) →
      (pw.isSome = true ∨ ∀ x ∈ L, x.redis.password = cip) →
      (us.isSome = true ∨ ∀ x ∈ L, x.redis.username = ciu) →
      buildGo pw us (i + 1) cip ciu L = .ok (L, cip, ciu) := by
  intro L
  induction L with
  | nil => intro i cip ciu _ _ _; simp [buildGo]
  | cons a rest ih =>
    intro i cip ciu hu hp hq
    have hau : a.addr.isUnixAddr = false := hu a (List.mem_cons_self a rest)
    have hstep1 : credStep pw.isSome (i + 1) cip a.redis.password differentPasswordError
        = .ok cip := by
      rcases hp with hp | hp
      · rw [hp]; exact credStep_override _ _ _ _
      · cases hb : pw.isSome
        · rw [credStep_succ, if_pos (hp a (List.mem_cons_self a rest)).symm]
        · exact credStep_override _ _ _ _
    have hstep2 : credStep us.isSome (i + 1) ciu a.redis.username differentUsernameError
        = .ok ciu := by
      rcases hq with hq | hq
      · rw [hq]; exact credStep_override _ _ _ _
      · cases hb : us.isSome
        · rw [credStep_succ, if_pos (hq a (List.mem_cons_self a rest)).symm]
        · exact credStep_override _ _ _ _
    have hrest : buildGo pw us (i + 1 + 1) cip ciu rest = .ok (rest, cip, ciu) := by
      refine ih (i + 1) cip ciu (fun x hx => hu x (List.mem_cons_of_mem a hx)) ?_ ?_
      · rcases hp with hp | hp
        · exact Or.inl hp
        · exact Or.inr fun x hx => hp x (List.mem_cons_of_mem a hx)
      · rcases hq with hq | hq
        · exact Or.inl hq
        · exact Or.inr fun x hx => hq x (List.mem_cons_of_mem a hx)
    simp [buildGo, hau, hstep1, hstep2, hrest]

/-- Tail password agreement: with no password override, a successful loop
past index 0 forces every node's embedded password to equal the running
candidate. -/
theorem buildGo_tail_pw_all {us : Option String} :
    ∀ (L : List ConnectionInfo) (i : Nat) (cip ciu : Option String)
      (r : List ConnectionInfo × Option String × Option String),
      buildGo none us (i + 1) cip ciu L = .ok r →
      ∀ x ∈ L, x.redis.password = cip := by
  intro L
  induction L with
  | nil => intro i cip ciu r _; simp
  | cons a rest ih =>
    intro i cip ciu r h
    simp only [buildGo] at h
    split at h
    · exact absurd h (by simp)
    next hu =>
      split at h
      · exact absurd h (by simp)
      next cip2 hp =>
        have hpa : cip2 = cip ∧ a.redis.password = cip := by
          rw [show (none : Option String).isSome = false from rfl, credStep_succ] at hp
          by_cases hc : cip = a.redis.password
          · rw [if_pos hc] at hp
            exact ⟨((Except.ok.injEq _ _).mp hp).symm, hc.symm⟩
          · rw [if_neg hc] at hp; exact absurd hp (by simp)
        split at h
        · exact absurd h (by simp)
        next ciu2 hq =>
          split at h
          · exact absurd h (by simp)
          next ns2 p2 u2 hr =>
            intro x hx
            rcases List.mem_cons.mp hx with hx | hx
            · subst hx; exact hpa.2
            · exact hpa.1 ▸ ih (i + 1) cip2 ciu2 (ns2, p2, u2) hr x hx

/-- Tail username agreement: with no username override, a successful loop
past index 0 forces every node's embedded username to equal the running
candidate. -/
theorem buildGo_tail_us_all {pw : Option String} :
    ∀ (L : List ConnectionInfo) (i : Nat) (cip ciu : Option String)
      (r : List ConnectionInfo × Option String × Option String),
      buildGo pw none (i + 1) cip ciu L = .ok r →
      ∀ x ∈ L, x.redis.username = ciu := by
  intro L
  induction L with
  | nil => intro i cip ciu r _; simp
  | cons a rest ih =>
    intro i cip ciu r h
    simp only [buildGo] at h
    split at h
    · exact absurd h (by simp)
    next hu =>
      split at h
      · exact absurd h (by simp)
      next cip2 hp =>
        split at h
        · exact absurd h (by simp)
        next ciu2 hq =>
          have hqa : ciu2 = ciu ∧ a.redis.username = ciu := by
            rw [show (none : Option String).isSome = false from rfl, credStep_succ] at hq
            by_cases hc : ciu = a.redis.username
            · rw [if_pos hc] at hq
              exact ⟨((Except.ok.injEq _ _).mp hq).symm, hc.symm⟩
            · rw [if_neg hc] at hq; exact absurd hq (by simp)
          split at h
          · exact absurd h (by simp)
          next ns2 p2 u2 hr =>
            intro x hx
            rcases List.mem_cons.mp hx with hx | hx
            · subst hx; exact hqa.2
            · exact hqa.1 ▸ ih (i + 1) cip2 ciu2 (ns2, p2, u2) hr x hx

/-- Tail password mismatch: with no password override, no unix node and a
consistent (or overridden) username column, a node whose embedded password
differs from the running candidate forces the loop past index 0 to fail
with the password inconsistency error. -/
theorem buildGo_tail_pwerr {us : Option String} :
    ∀ (L : List ConnectionInfo) (i : Nat) (cip ciu : Option String),
      (∀ x ∈ L, x.addr.isUnixAddr = false) →
      (us.isSome = true ∨ ∀ x ∈ L, x.redis.username = ciu) →
      (∃ x ∈ L, x.redis.password ≠ cip) →
      buildGo none us (i + 1) cip ciu L = .error differentPasswordError := by
  intro L
  induction L with
  | nil => intro i cip ciu _ _ hex; simp at hex
  | cons a rest ih =>
    intro i cip ciu hu hq hex
    have hau : a.addr.isUnixAddr = false := hu a (List.mem_cons_self a rest)
    by_cases hpa : cip = a.redis.password
    · have hstep1 : credStep false (i + 1) cip a.redis.password
          differentPasswordError = .ok cip := by
        rw [credStep_succ, if_pos hpa]
      have hstep2 : credStep us.isSome (i + 1) ciu a.redis.username differentUsernameError
          = .ok ciu := by
        rcases hq with hq | hq
        · rw [hq]; exact credStep_override _ _ _ _
        · cases hb : us.isSome
          · rw [credStep_succ, if_pos (hq a (List.mem_cons_self a rest)).symm]
          · exact credStep_override _ _ _ _
      have hrest : buildGo none us (i + 1 + 1) cip ciu rest = .error differentPasswordError := by
        refine ih (i + 1) cip ciu (fun x hx => hu x (List.mem_cons_of_mem a hx)) ?_ ?_
        · rcases hq with hq | hq
          · exact Or.inl hq
          · exact Or.inr fun x hx => hq x (List.mem_cons_of_mem a hx)
        · obtain ⟨x, hx, hxe⟩ := hex
          rcases List.mem_cons.mp hx with hx | hx
          · subst hx; exact absurd hpa.symm hxe
          · exact ⟨x, hx, hxe⟩
      simp [buildGo, hau, hstep1, hstep2, hrest]
    · have hstep1 : credStep false (i + 1) cip a.redis.password
          differentPasswordError = .error differentPasswordError := by
        rw [credStep_succ, if_neg hpa]
      simp [buildGo, hau, hstep1]

/-- Tail username mismatch: with no username override, no unix node and a
consistent (or overridden) password column, a node whose embedded username
differs from the running candidate forces the loop past index 0 to fail
with the username inconsistency error. -/
theorem buildGo_tail_userr {pw : Option String} :
    ∀ (L : List ConnectionInfo) (i : Nat) (cip ciu : Option String),
      (∀ x ∈ L, x.addr.isUnixAddr = false) →
      (pw.isSome = true ∨ ∀ x ∈ L, x.redis.password = cip) →
      (∃ x ∈ L, x.redis.username ≠ ciu) →
      buildGo pw none (i + 1) cip ciu L = .error differentUsernameError := by
  intro L
  induction L with
  | nil => intro i cip ciu _ _ hex; simp at hex
  | cons a rest ih =>
    intro i cip ciu hu hp hex
    have hau : a.addr.isUnixAddr = false := hu a (List.mem_cons_self a rest)
    have hstep1 : credStep pw.isSome (i + 1) cip a.redis.password differentPasswordError
        = .ok cip := by
      rcases hp with hp | hp
      · rw [hp]; exact credStep_override _ _ _ _
      · cases hb : pw.isSome
        · rw [credStep_succ, if_pos (hp a (List.mem_cons_self a rest)).symm]
        · exact credStep_override _ _ _ _
    by_cases hua : ciu = a.redis.username
    · have hstep2 : credStep false (i + 1) ciu a.redis.username
          differentUsernameError = .ok ciu := by
        rw [credStep_succ, if_pos hua]
      have hrest : buildGo pw none (i + 1 + 1) cip ciu rest = .error differentUsernameError := by
        refine ih (i + 1) cip ciu (fun x hx => hu x (List.mem_cons_of_mem a hx)) ?_ ?_
        · rcases hp with hp | hp
          · exact Or.inl hp
          · exact Or.inr fun x hx => hp x (List.mem_cons_of_mem a hx)
        · obtain ⟨x, hx, hxe⟩ := hex
          rcases List.mem_cons.mp hx with hx | hx
          · subst hx; exact absurd hua.symm hxe
          · exact ⟨x, hx, hxe⟩
      simp [buildGo, hau, hstep1, hstep2, hrest]
    · have hstep2 : credStep false (i + 1) ciu a.redis.username
          differentUsernameError = .error differentUsernameError := by
        rw [credStep_succ, if_neg hua]
      simp [buildGo, hau, hstep1, hstep2]

/-- With both explicit credential overrides set, the only check left in
the loop is the unix-socket check, so any list containing a unix node
fails with exactly the unix-socket error, at whatever index the node
stands. -/
theorem buildGo_overrides_unix (P U : String) :
    ∀ (L : List ConnectionInfo) (i : Nat) (cip ciu : Option String),
      (∃ x ∈ L, x.addr.isUnixAddr = true) →
      buildGo (some P) (some U) i cip ciu L = .error unixSocketError := by
  intro L
  induction L with
  | nil => intro i cip ciu hex; simp at hex
  | cons a rest ih =>
    intro i cip ciu hex
    by_cases hau : a.addr.isUnixAddr
    · simp [buildGo, hau]
    · have hex2 : ∃ x ∈ rest, x.addr.isUnixAddr = true := by
        obtain ⟨x, hx, hxe⟩ := hex
        rcases List.mem_cons.mp hx with hx | hx
        · subst hx; exact absurd hxe hau
        · exact ⟨x, hx, hxe⟩
      have hrest := ih (i + 1) cip ciu hex2
      simp [buildGo, hau, credStep_override, hrest]

/-- Every error of the node loop has kind `InvalidClientConfig`. -/
theorem buildGo_error_kind {pw us : Option String} :
    ∀ (L : List ConnectionInfo) (i : Nat) (cip ciu : Option String) (e : RedisError),
      buildGo pw us i cip ciu L = .error e → e.kind = .InvalidClientConfig := by
  intro L
  induction L with
  | nil => intro i cip ciu e h; exact absurd h (by simp [buildGo])
  | cons a rest ih =>
    intro i cip ciu e h
    simp only [buildGo] at h
    split at h
    · rw [← (Except.error.injEq _ _).mp h]; rfl
    next hu =>
      split at h
      next e2 hp =>
        rw [← (Except.error.injEq _ _).mp h, credStep_error hp]; rfl
      next cip2 hp =>
        split at h
        next e2 hq =>
          rw [← (Except.error.injEq _ _).mp h, credStep_error hq]; rfl
        next ciu2 hq =>
          split at h
          next e2 hr =>
            rw [← (Except.error.injEq _ _).mp h]
            exact ih (i + 1) cip2 ciu2 e2 hr
          next ns2 p2 u2 hr =>
            exact absurd h (by simp)

end RedisRev

/-- Collecting a list of already-parsed nodes wrapped in `Ok` (the
`IntoConnectionInfo` identity instance used by `Clone`) yields the list
itself. -/
theorem collectResults_map_ok (L : List ConnectionInfo) :
    collectResults (L.map Except.ok) = .ok L := by
  induction L with
  | nil => rfl
  | cons a rest ih => simp [collectResults, ih]

namespace TlsRev

/-- Tail success of the TLS-revision loop with both credential overrides
set and no TLS-material override: past index 0, every node must be
routable and its TLS material (when the address carries any) must equal
the corresponding running candidate; then the loop succeeds and keeps all
candidates. -/
theorem tls_buildGo_tail_ok (P U : String) :
    ∀ (L : List ConnectionInfo) (i : Nat) (cip ciu : Option String)
      (cic : Option Certificate) (cii : Option RedisIdentity),
      (∀ x ∈ L, x.addr.isUnixAddr = false) →
      (∀ x ∈ L, tlsCaOfAddr x.addr = none ∨ tlsCaOfAddr x.addr = some cic) →
      (∀ x ∈ L, tlsIdentityOfAddr x.addr = none ∨ tlsIdentityOfAddr x.addr = some cii) →
      buildGo (some P) (some U) none none (i + 1) cip ciu cic cii L
        = .ok (L, cip, ciu, cic, cii) := by
  intro L
  induction L with
  | nil => intro i cip ciu cic cii _ _ _; simp [buildGo]
  | cons a rest ih =>
    intro i cip ciu cic cii hu hca hid
    have hau : a.addr.isUnixAddr = false := hu a (List.mem_cons_self a rest)
    have hstepc : tlsMaterialStep false (i + 1) cic
        (tlsCaOfAddr a.addr) differentCaCertError = .ok cic := by
      rcases hca a (List.mem_cons_self a rest) with hc | hc <;>
        simp [tlsMaterialStep, hc, credStep_succ]
    have hstepi : tlsMaterialStep false (i + 1) cii
        (tlsIdentityOfAddr a.addr) differentIdentityError = .ok cii := by
      rcases hid a (List.mem_cons_self a rest) with hc | hc <;>
        simp [tlsMaterialStep, hc, credStep_succ]
    have hrest : buildGo (some P) (some U) none none (i + 1 + 1) cip ciu cic cii rest
        = .ok (rest, cip, ciu, cic, cii) := by
      exact ih (i + 1) cip ciu cic cii (fun x hx => hu x (List.mem_cons_of_mem a hx))
        (fun x hx => hca x (List.mem_cons_of_mem a hx))
        (fun x hx => hid x (List.mem_cons_of_mem a hx))
    simp [buildGo, hau, credStep_override, hstepc, hstepi, hrest]

end TlsRev

/-- The two revisions run the identical node loop on the non-TLS path. -/
theorem buildGo_rev_agree (pw us : Option String) :
    ∀ (L : List ConnectionInfo) (i : Nat) (cip ciu : Option String),
      SrcPlainRev.buildGo pw us i cip ciu L = RedisRev.buildGo pw us i cip ciu L := by
  intro L
  induction L with
  | nil => intro i cip ciu; rfl
  | cons a rest ih =>
    intro i cip ciu
    simp only [SrcPlainRev.buildGo, RedisRev.buildGo, ih]

/-- C8: a conversion (parse) failure for any input address is recorded in
the builder rather than raised — builder construction and the setters are
total functions that leave the recorded result untouched — and `build`
then propagates exactly the recorded first parse error, unwrapped and
unreinterpreted, regardless of every override and of every other node in
the input (so before any topology or credential check can run). -/
theorem c8_parse_error_propagated (xs : List (RedisResult ConnectionInfo)) (e : RedisError)
    (h : collectResults xs = .error e) :
    (RedisRev.ClusterClientBuilder.new xs).build = .error e ∧
      ∀ p u : String,
        (((RedisRev.ClusterClientBuilder.new xs).setPassword p).setUsername u).build
            = .error e ∧
          (((RedisRev.ClusterClientBuilder.new xs).setPassword p).setUsername u).initial_nodes
            = collectResults xs := by
  refine ⟨?_, fun p u => ⟨?_, rfl⟩⟩
  · simp only [RedisRev.ClusterClientBuilder.build, RedisRev.ClusterClientBuilder.new, h]
  · simp only [RedisRev.ClusterClientBuilder.build, RedisRev.ClusterClientBuilder.setUsername,
      RedisRev.ClusterClientBuilder.setPassword, RedisRev.ClusterClientBuilder.new, h]

/-- Witness for C8 at a concrete input: the first element fails to parse
and a unix-socket node follows it, yet `build` reports exactly the parse
error whatever overrides are set. -/
theorem c8_witness :
    (RedisRev.ClusterClientBuilder.new [.error parseFailure, .ok nUnix]).build
        = .error parseFailure ∧
      ∀ p u : String,
        (((RedisRev.ClusterClientBuilder.new [.error parseFailure, .ok nUnix]).setPassword
              p).setUsername u).build
            = .error parseFailure ∧
          (((RedisRev.ClusterClientBuilder.new [.error parseFailure, .ok nUnix]).setPassword
              p).setUsername u).initial_nodes
            = collectResults [.error parseFailure, .ok nUnix] :=
  c8_parse_error_propagated [.error parseFailure, .ok nUnix] parseFailure rfl

/-- C9: setters are last-write-wins per field and frame-preserving: two
successive password setter calls leave `some` of the second value, touch
no other builder field, and a successful `build` resolves the password to
that second value; symmetrically for the username setter. -/
theorem c9_setters_last_write_wins (b : RedisRev.ClusterClientBuilder) (v1 v2 : String) :
    ((b.setPassword v1).setPassword v2).password = some v2 ∧
    ((b.setPassword v1).setPassword v2).username = b.username ∧
    ((b.setPassword v1).setPassword v2).initial_nodes = b.initial_nodes ∧
    ((b.setPassword v1).setPassword v2).read_from_replicas = b.read_from_replicas ∧
    (∀ c, ((b.setPassword v1).setPassword v2).build = .ok c → c.password = some v2) ∧
    ((b.setUsername v1).setUsername v2).username = some v2 ∧
    ((b.setUsername v1).setUsername v2).password = b.password ∧
    ((b.setUsername v1).setUsername v2).initial_nodes = b.initial_nodes ∧
    ((b.setUsername v1).setUsername v2).read_from_replicas = b.read_from_replicas ∧
    (∀ c, ((b.setUsername v1).setUsername v2).build = .ok c → c.username = some v2) := by
  refine ⟨rfl, rfl, rfl, rfl, ?_, rfl, rfl, rfl, rfl, ?_⟩
  · intro c hc
    simp only [RedisRev.ClusterClientBuilder.build] at hc
    split at hc
    · exact absurd hc (by simp)
    next L hL =>
      split at hc
      · exact absurd hc (by simp)
      next ns p u hgo =>
        obtain rfl := (Except.ok.injEq _ _).mp hc
        rfl
  · intro c hc
    simp only [RedisRev.ClusterClientBuilder.build] at hc
    split at hc
    · exact absurd hc (by simp)
    next L hL =>
      split at hc
      · exact absurd hc (by simp)
      next ns p u hgo =>
        obtain rfl := (Except.ok.injEq _ _).mp hc
        rfl

/-- C10: on the non-TLS path, the `src/redis` revision and the `src/src`
revision (compiled without the `tls` feature) are behaviorally equivalent:
from identical builder state they either fail with errors of equal kind or
succeed with equal node lists, resolved usernames, resolved passwords and
replica-read flags. -/
theorem c10_revisions_agree (ns : RedisResult (List ConnectionInfo)) (r : Bool)
    (us pw : Option String) :
    (∃ e1 e2, (RedisRev.ClusterClientBuilder.mk ns r us pw).build = .error e1 ∧
        (SrcPlainRev.ClusterClientBuilder.mk ns r us pw).build = .error e2 ∧
        e1.kind = e2.kind) ∨
      (∃ c1 c2, (RedisRev.ClusterClientBuilder.mk ns r us pw).build = .ok c1 ∧
        (SrcPlainRev.ClusterClientBuilder.mk ns r us pw).build = .ok c2 ∧
        c1.initial_nodes = c2.initial_nodes ∧ c1.username = c2.username ∧
        c1.password = c2.password ∧ c1.read_from_replicas = c2.readonly) := by
  cases hn : ns with
  | error e =>
    left
    refine ⟨e, e, ?_, ?_, rfl⟩
    · simp only [RedisRev.ClusterClientBuilder.build]
    · simp only [SrcPlainRev.ClusterClientBuilder.build]
  | ok L =>
    cases hgo : RedisRev.buildGo pw us 0 none none L with
    | error e =>
      left
      refine ⟨e, e, ?_, ?_, rfl⟩
      · simp only [RedisRev.ClusterClientBuilder.build, hgo]
      · simp only [SrcPlainRev.ClusterClientBuilder.build, buildGo_rev_agree, hgo]
    | ok r3 =>
      obtain ⟨ns2, p, u⟩ := r3
      right
      refine ⟨{ initial_nodes := ns2, read_from_replicas := r, username := us.or u,
                password := pw.or p },
              { initial_nodes := ns2, readonly := r, username := us.or u,
                password := pw.or p }, ?_, ?_, rfl, rfl, rfl, rfl⟩
      · simp only [RedisRev.ClusterClientBuilder.build, hgo]
      · simp only [SrcPlainRev.ClusterClientBuilder.build, buildGo_rev_agree, hgo]

/-- C2 (amended): for every builder whose parsed node list contains a
local-socket (unix) address, `build` fails with an
`ErrorKind.InvalidClientConfig` error; it fails with exactly the
unix-socket (invalid topology) error whenever both explicit credential
overrides are set — then regardless of the other nodes' credential
contents and of where in the list the unix node appears — while without
overrides a credential inconsistency at a strictly earlier index yields
that credential error instead. -/
theorem c2_unix_node_fails (b : RedisRev.ClusterClientBuilder) (L : List ConnectionInfo)
    (hn : b.initial_nodes = .ok L) (hex : ∃ x ∈ L, x.addr.isUnixAddr = true) :
    (∃ e, b.build = .error e ∧ e.kind = .InvalidClientConfig) ∧
      ∀ P U : String, b.password = some P → b.username = some U →
        b.build = .error unixSocketError := by
  constructor
  · cases hgo : RedisRev.buildGo b.password b.username 0 none none L with
    | ok r =>
      obtain ⟨ns, p, u⟩ := r
      obtain ⟨-, hall⟩ := RedisRev.buildGo_ok_nodes L 0 none none ns p u hgo
      obtain ⟨x, hx, hxe⟩ := hex
      rw [hall x hx] at hxe
      exact absurd hxe (by simp)
    | error e =>
      refine ⟨e, ?_, RedisRev.buildGo_error_kind L 0 none none e hgo⟩
      simp only [RedisRev.ClusterClientBuilder.build, hn, hgo]
  · intro P U hP hU
    have hunix := RedisRev.buildGo_overrides_unix P U L 0 none none hex
    simp only [RedisRev.ClusterClientBuilder.build, hn, hP, hU, hunix]

/-- Counterexample to C2 as stated: the list contains a unix-socket node
(at index 2), yet `build` fails with the password inconsistency message,
not the unix-socket message, because the credential mismatch at index 1 is
detected first. -/
theorem c2_counterexample :
    (RedisRev.ClusterClientBuilder.new [.ok nPw1, .ok nPw2, .ok nUnix]).build
        = .error differentPasswordError ∧
      differentPasswordError ≠ unixSocketError :=
  ⟨rfl, by decide⟩

/-- Witness for C2 at a concrete input: a unix node behind a credentialed
node, with both overrides set. -/
theorem c2_witness :
    (∃ e, (((RedisRev.ClusterClientBuilder.new [.ok nPw1, .ok nUnix]).setPassword
          "P").setUsername "U").build = .error e ∧ e.kind = .InvalidClientConfig) ∧
      ∀ P U : String,
        (((RedisRev.ClusterClientBuilder.new [.ok nPw1, .ok nUnix]).setPassword
            "P").setUsername "U").password = some P →
          (((RedisRev.ClusterClientBuilder.new [.ok nPw1, .ok nUnix]).setPassword
              "P").setUsername "U").username = some U →
            (((RedisRev.ClusterClientBuilder.new [.ok nPw1, .ok nUnix]).setPassword
                "P").setUsername "U").build = .error unixSocketError :=
  c2_unix_node_fails _ [nPw1, nUnix] rfl ⟨nUnix, by simp, rfl⟩

/-- C4 (amended): for every non-empty parsed node list that contains no
local-socket (unix) address, with no explicit username or password
override, where every node's embedded username equals the first node's and
every node's embedded password equals the first node's (absence counting
as a value), `build` succeeds and resolves the username and password to
those common embedded values — absence on all nodes resolving to no
authentication. -/
theorem c4_common_credentials_build_ok (b : RedisRev.ClusterClientBuilder)
    (a : ConnectionInfo) (rest : List ConnectionInfo)
    (hn : b.initial_nodes = .ok (a :: rest))
    (hpw : b.password = none) (hus : b.username = none)
    (hnu : ∀ x ∈ a :: rest, x.addr.isUnixAddr = false)
    (hpa : ∀ x ∈ rest, x.redis.password = a.redis.password)
    (hua : ∀ x ∈ rest, x.redis.username = a.redis.username) :
    b.build = .ok { initial_nodes := a :: rest
                    read_from_replicas := b.read_from_replicas
                    username := a.redis.username
                    password := a.redis.password } := by
  have hau : a.addr.isUnixAddr = false := hnu a (List.mem_cons_self a rest)
  have htail : RedisRev.buildGo none none 1 a.redis.password a.redis.username rest
      = .ok (rest, a.redis.password, a.redis.username) :=
    RedisRev.buildGo_tail_ok rest 0 a.redis.password a.redis.username
      (fun x hx => hnu x (List.mem_cons_of_mem a hx)) (Or.inr hpa) (Or.inr hua)
  have hgo : RedisRev.buildGo none none 0 none none (a :: rest)
      = .ok (a :: rest, a.redis.password, a.redis.username) := by
    simp [RedisRev.buildGo, hau, credStep, htail]
  simp only [RedisRev.ClusterClientBuilder.build, hn, hpw, hus, hgo, Option.none_or]

/-- Counterexample to C4 as stated: a non-empty list with no overrides and
trivially identical embedded credentials (a single node, credentials all
absent) on which `build` nevertheless fails, because the node is a unix
socket — C4 omits the no-local-socket hypothesis. -/
theorem c4_counterexample :
    (RedisRev.ClusterClientBuilder.new [.ok nUnix]).build = .error unixSocketError := rfl

/-- Witness for C4 at a concrete input: two nodes embedding the same
password and no username. -/
theorem c4_witness :
    (RedisRev.ClusterClientBuilder.new [.ok nPw1, .ok nPw1b]).build
      = .ok { initial_nodes := [nPw1, nPw1b], read_from_replicas := false,
              username := none, password := some "pw1" } := by
  have h := c4_common_credentials_build_ok
    (RedisRev.ClusterClientBuilder.new [.ok nPw1, .ok nPw1b]) nPw1 [nPw1b]
    rfl rfl rfl (by decide) (by decide) (by decide)
  exact h

/-- C7 (amended): every successfully built client owns exactly the parsed
input node list, order preserved, and that list contains no unix-socket
member; the list is non-empty exactly when the input was (an empty input
builds successfully with an empty node list, contrary to C7 as stated). -/
theorem c7_built_node_list_invariant (b : RedisRev.ClusterClientBuilder)
    (L : List ConnectionInfo) (c : RedisRev.ClusterClient)
    (hn : b.initial_nodes = .ok L) (hb : b.build = .ok c) :
    c.initial_nodes = L ∧ ∀ x ∈ c.initial_nodes, x.addr.isUnixAddr = false := by
  simp only [RedisRev.ClusterClientBuilder.build, hn] at hb
  split at hb
  · exact absurd hb (by simp)
  next ns p u hgo =>
    obtain ⟨hns, hall⟩ := RedisRev.buildGo_ok_nodes L 0 none none ns p u hgo
    obtain rfl := (Except.ok.injEq _ _).mp hb
    refine ⟨hns, ?_⟩
    intro x hx
    exact hall x (hns ▸ hx)

/-- Counterexample to C7 as stated: `build` on the empty input list
succeeds and produces a configuration whose node list is empty. -/
theorem c7_counterexample :
    (RedisRev.ClusterClientBuilder.new []).build
      = .ok { initial_nodes := [], read_from_replicas := false,
              username := none, password := none } := rfl

/-- Witness for C7 at a concrete input: one plain node. -/
theorem c7_witness :
    builtPlainA.initial_nodes = [nPlainA] ∧
      ∀ x ∈ builtPlainA.initial_nodes, x.addr.isUnixAddr = false :=
  c7_built_node_list_invariant (RedisRev.ClusterClientBuilder.new [.ok nPlainA])
    [nPlainA] builtPlainA rfl rfl

/-- C5 (amended): on a parsed node list with no local-socket address, if
two nodes carry differing embedded passwords — present-present and
absent-present mismatches alike, absence comparing as a distinct value —
and no explicit password override is set, `build` fails with an
`ErrorKind.InvalidClientConfig` error, and the error is exactly the
password-naming inconsistency error whenever the embedded usernames agree
across all nodes or a username override is set (a username mismatch at a
strictly earlier index being reported otherwise); the same holds
independently for username: differing embedded usernames with no username
override fail the build, naming the username field whenever the embedded
passwords agree across all nodes or a password override is set. -/
theorem c5_credential_mismatch_fails (b : RedisRev.ClusterClientBuilder)
    (a : ConnectionInfo) (rest : List ConnectionInfo)
    (hn : b.initial_nodes = .ok (a :: rest))
    (hnu : ∀ x ∈ a :: rest, x.addr.isUnixAddr = false) :
    (b.password = none →
      (∃ x ∈ a :: rest, ∃ y ∈ a :: rest, x.redis.password ≠ y.redis.password) →
      (∃ e, b.build = .error e ∧ e.kind = .InvalidClientConfig) ∧
        ((b.username.isSome = true ∨ ∀ x ∈ a :: rest, x.redis.username = a.redis.username) →
          b.build = .error differentPasswordError)) ∧
      (b.username = none →
        (∃ x ∈ a :: rest, ∃ y ∈ a :: rest, x.redis.username ≠ y.redis.username) →
        (∃ e, b.build = .error e ∧ e.kind = .InvalidClientConfig) ∧
          ((b.password.isSome = true ∨ ∀ x ∈ a :: rest, x.redis.password = a.redis.password) →
            b.build = .error differentUsernameError)) := by
  have hau : a.addr.isUnixAddr = false := hnu a (List.mem_cons_self a rest)
  constructor
  · intro hpw hdiff
    have hrex : ∃ x ∈ rest, x.redis.password ≠ a.redis.password := by
      obtain ⟨x, hx, y, hy, hxy⟩ := hdiff
      by_cases hxa : x.redis.password = a.redis.password
      · have hya : y.redis.password ≠ a.redis.password := by
          intro hya; exact hxy (hxa.trans hya.symm)
        rcases List.mem_cons.mp hy with hy | hy
        · subst hy; exact absurd rfl hya
        · exact ⟨y, hy, hya⟩
      · rcases List.mem_cons.mp hx with hx | hx
        · subst hx; exact absurd rfl hxa
        · exact ⟨x, hx, hxa⟩
    constructor
    · cases hgo : RedisRev.buildGo b.password b.username 0 none none (a :: rest) with
      | ok r =>
        exfalso
        obtain ⟨ns, p, u⟩ := r
        rw [hpw] at hgo
        simp only [RedisRev.buildGo] at hgo
        split at hgo
        · exact absurd hgo (by simp)
        next hu2 =>
          split at hgo
          · exact absurd hgo (by simp)
          next cip2 hp =>
            have hcip2 : cip2 = a.redis.password := by
              rw [show (none : Option String).isSome = false from rfl, credStep_zero] at hp
              exact ((Except.ok.injEq _ _).mp hp).symm
            split at hgo
            · exact absurd hgo (by simp)
            next ciu2 hq =>
              split at hgo
              · exact absurd hgo (by simp)
              next ns2 p2 u2 hr =>
                have hall := RedisRev.buildGo_tail_pw_all rest 0 cip2 ciu2 (ns2, p2, u2) hr
                obtain ⟨x, hx, hxe⟩ := hrex
                exact hxe (hcip2 ▸ hall x hx)
      | error e =>
        refine ⟨e, ?_, RedisRev.buildGo_error_kind (a :: rest) 0 none none e hgo⟩
        simp only [RedisRev.ClusterClientBuilder.build, hn, hgo]
    · intro hcond
      have hbuild0 : RedisRev.buildGo b.password b.username 0 none none (a :: rest)
          = .error differentPasswordError := by
        rw [hpw]
        cases hbu : b.username.isSome
        case true =>
          have htail := @RedisRev.buildGo_tail_pwerr b.username rest 0
            a.redis.password none
            (fun x hx => hnu x (List.mem_cons_of_mem a hx)) (Or.inl hbu) hrex
          simp [RedisRev.buildGo, hau, credStep, hbu, htail]
        case false =>
          have husr : ∀ x ∈ rest, x.redis.username = a.redis.username := by
            rcases hcond with hc | hc
            · rw [hbu] at hc; exact absurd hc (by simp)
            · exact fun x hx => hc x (List.mem_cons_of_mem a hx)
          have htail := @RedisRev.buildGo_tail_pwerr b.username rest 0
            a.redis.password a.redis.username
            (fun x hx => hnu x (List.mem_cons_of_mem a hx))
            (Or.inr husr) hrex
          simp [RedisRev.buildGo, hau, credStep, hbu, htail]
      simp only [RedisRev.ClusterClientBuilder.build, hn, hbuild0]
  · intro husn hdiff
    have hrexu : ∃ x ∈ rest, x.redis.username ≠ a.redis.username := by
      obtain ⟨x, hx, y, hy, hxy⟩ := hdiff
      by_cases hxa : x.redis.username = a.redis.username
      · have hya : y.redis.username ≠ a.redis.username := by
          intro hya; exact hxy (hxa.trans hya.symm)
        rcases List.mem_cons.mp hy with hy | hy
        · subst hy; exact absurd rfl hya
        · exact ⟨y, hy, hya⟩
      · rcases List.mem_cons.mp hx with hx | hx
        · subst hx; exact absurd rfl hxa
        · exact ⟨x, hx, hxa⟩
    constructor
    · cases hgo : RedisRev.buildGo b.password b.username 0 none none (a :: rest) with
      | ok r =>
        exfalso
        obtain ⟨ns, p, u⟩ := r
        rw [husn] at hgo
        simp only [RedisRev.buildGo] at hgo
        split at hgo
        · exact absurd hgo (by simp)
        next hu2 =>
          split at hgo
          · exact absurd hgo (by simp)
          next cip2 hp =>
            split at hgo
            · exact absurd hgo (by simp)
            next ciu2 hq =>
              have hciu2 : ciu2 = a.redis.username := by
                rw [show (none : Option String).isSome = false from rfl, credStep_zero] at hq
                exact ((Except.ok.injEq _ _).mp hq).symm
              split at hgo
              · exact absurd hgo (by simp)
              next ns2 p2 u2 hr =>
                have hall := RedisRev.buildGo_tail_us_all rest 0 cip2 ciu2 (ns2, p2, u2) hr
                obtain ⟨x, hx, hxe⟩ := hrexu
                exact hxe (hciu2 ▸ hall x hx)
      | error e =>
        refine ⟨e, ?_, RedisRev.buildGo_error_kind (a :: rest) 0 none none e hgo⟩
        simp only [RedisRev.ClusterClientBuilder.build, hn, hgo]
    · intro hpcond
      have hbuild0 : RedisRev.buildGo b.password b.username 0 none none (a :: rest)
          = .error differentUsernameError := by
        rw [husn]
        cases hbp : b.password.isSome
        case true =>
          have htail := @RedisRev.buildGo_tail_userr b.password rest 0
            none a.redis.username
            (fun x hx => hnu x (List.mem_cons_of_mem a hx)) (Or.inl hbp) hrexu
          simp [RedisRev.buildGo, hau, credStep, hbp, htail]
        case false =>
          have hpall : ∀ x ∈ rest, x.redis.password = a.redis.password := by
            rcases hpcond with hc | hc
            · rw [hbp] at hc; exact absurd hc (by simp)
            · exact fun x hx => hc x (List.mem_cons_of_mem a hx)
          have htail := @RedisRev.buildGo_tail_userr b.password rest 0
            a.redis.password a.redis.username
            (fun x hx => hnu x (List.mem_cons_of_mem a hx))
            (Or.inr hpall) hrexu
          simp [RedisRev.buildGo, hau, credStep, hbp, htail]
      simp only [RedisRev.ClusterClientBuilder.build, hn, hbuild0]

/-- Counterexample to C5 as stated: nodes 0 and 2 carry differing
non-absent passwords and no password override is set, yet `build` reports
the username inconsistency error (the usernames of nodes 0 and 1 differ
and the username check at index 1 fires before any password mismatch), not
the password-naming error that C5 promises. -/
theorem c5_counterexample :
    (RedisRev.ClusterClientBuilder.new [.ok nU1P, .ok nU2P, .ok nU1Q]).build
        = .error differentUsernameError ∧
      differentUsernameError ≠ differentPasswordError :=
  ⟨rfl, by decide⟩

/-- Witness for C5 at concrete inputs covering both fields: node 0 embeds
no password while node 1 embeds one (an absent-vs-present mismatch) with
agreeing absent usernames, so build fails with exactly the password-naming
error; and two nodes with equal passwords but differing usernames fail
with exactly the username-naming error. -/
theorem c5_witness :
    ((∃ e, (RedisRev.ClusterClientBuilder.new [.ok nPlainA, .ok nPw2]).build = .error e ∧
        e.kind = .InvalidClientConfig) ∧
      (RedisRev.ClusterClientBuilder.new [.ok nPlainA, .ok nPw2]).build
        = .error differentPasswordError) ∧
      (RedisRev.ClusterClientBuilder.new [.ok nU1P, .ok nU2P]).build
        = .error differentUsernameError := by
  constructor
  · have h := (c5_credential_mismatch_fails
        (RedisRev.ClusterClientBuilder.new [.ok nPlainA, .ok nPw2]) nPlainA [nPw2]
        rfl (by decide)).1 rfl ⟨nPlainA, by simp, nPw2, by simp, by decide⟩
    exact ⟨h.1, h.2 (Or.inr (by decide))⟩
  · have h := (c5_credential_mismatch_fails
        (RedisRev.ClusterClientBuilder.new [.ok nU1P, .ok nU2P]) nU1P [nU2P]
        rfl (by decide)).2 rfl ⟨nU1P, by simp, nU2P, by simp, by decide⟩
    exact h.2 (Or.inr (by decide))

/-- C6 (amended): an explicit override always wins for its own field on a
parsed node list with no local-socket address: a password override makes
`build` succeed with the override as the resolved password — regardless of
how the embedded passwords disagree — provided the embedded usernames
agree across all nodes or a username override is set, and analogously a
username override makes `build` succeed with the override as the resolved
username provided the embedded passwords agree across all nodes or a
password override is set; without the proviso the other field's
consistency check still fails the build. -/
theorem c6_explicit_override_wins (b : RedisRev.ClusterClientBuilder)
    (L : List ConnectionInfo)
    (hn : b.initial_nodes = .ok L)
    (hnu : ∀ x ∈ L, x.addr.isUnixAddr = false) :
    (∀ P : String, b.password = some P →
      (b.username.isSome = true ∨ ∀ x ∈ L, ∀ y ∈ L, x.redis.username = y.redis.username) →
      ∃ c, b.build = .ok c ∧ c.password = some P) ∧
      ∀ U : String, b.username = some U →
        (b.password.isSome = true ∨ ∀ x ∈ L, ∀ y ∈ L, x.redis.password = y.redis.password) →
        ∃ c, b.build = .ok c ∧ c.username = some U := by
  constructor
  · intro P hpw husern
    have hpsome : b.password.isSome = true := by rw [hpw]; rfl
    cases L with
    | nil =>
      refine ⟨{ initial_nodes := [], read_from_replicas := b.read_from_replicas,
                username := b.username.or none, password := b.password.or none }, ?_, ?_⟩
      · simp only [RedisRev.ClusterClientBuilder.build, hn, RedisRev.buildGo]
      · simp [hpw]
    | cons a rest =>
      have hau : a.addr.isUnixAddr = false := hnu a (List.mem_cons_self a rest)
      cases hbu : b.username.isSome
      case false =>
        have hua : ∀ x ∈ rest, x.redis.username = a.redis.username := by
          rcases husern with hc | hc
          · rw [hbu] at hc; exact absurd hc (by simp)
          · exact fun x hx => hc x (List.mem_cons_of_mem a hx) a (List.mem_cons_self a rest)
        have htail := @RedisRev.buildGo_tail_ok b.password b.username rest 0
          none a.redis.username (fun x hx => hnu x (List.mem_cons_of_mem a hx))
          (Or.inl hpsome) (Or.inr hua)
        refine ⟨{ initial_nodes := a :: rest, read_from_replicas := b.read_from_replicas,
                  username := b.username.or a.redis.username,
                  password := b.password.or none }, ?_, ?_⟩
        · simp only [RedisRev.ClusterClientBuilder.build, hn]
          simp [RedisRev.buildGo, hau, credStep, hpsome, hbu, htail]
        · simp [hpw]
      case true =>
        have htail := @RedisRev.buildGo_tail_ok b.password b.username rest 0
          none none (fun x hx => hnu x (List.mem_cons_of_mem a hx))
          (Or.inl hpsome) (Or.inl hbu)
        refine ⟨{ initial_nodes := a :: rest, read_from_replicas := b.read_from_replicas,
                  username := b.username.or none,
                  password := b.password.or none }, ?_, ?_⟩
        · simp only [RedisRev.ClusterClientBuilder.build, hn]
          simp [RedisRev.buildGo, hau, credStep, hpsome, hbu, htail]
        · simp [hpw]
  · intro U hus hpasn
    have husome : b.username.isSome = true := by rw [hus]; rfl
    cases L with
    | nil =>
      refine ⟨{ initial_nodes := [], read_from_replicas := b.read_from_replicas,
                username := b.username.or none, password := b.password.or none }, ?_, ?_⟩
      · simp only [RedisRev.ClusterClientBuilder.build, hn, RedisRev.buildGo]
      · simp [hus]
    | cons a rest =>
      have hau : a.addr.isUnixAddr = false := hnu a (List.mem_cons_self a rest)
      cases hbp : b.password.isSome
      case false =>
        have hpa : ∀ x ∈ rest, x.redis.password = a.redis.password := by
          rcases hpasn with hc | hc
          · rw [hbp] at hc; exact absurd hc (by simp)
          · exact fun x hx => hc x (List.mem_cons_of_mem a hx) a (List.mem_cons_self a rest)
        have htail := @RedisRev.buildGo_tail_ok b.password b.username rest 0
          a.redis.password none (fun x hx => hnu x (List.mem_cons_of_mem a hx))
          (Or.inr hpa) (Or.inl husome)
        refine ⟨{ initial_nodes := a :: rest, read_from_replicas := b.read_from_replicas,
                  username := b.username.or none,
                  password := b.password.or a.redis.password }, ?_, ?_⟩
        · simp only [RedisRev.ClusterClientBuilder.build, hn]
          simp [RedisRev.buildGo, hau, credStep, husome, hbp, htail]
        · simp [hus]
      case true =>
        have htail := @RedisRev.buildGo_tail_ok b.password b.username rest 0
          none none (fun x hx => hnu x (List.mem_cons_of_mem a hx))
          (Or.inl hbp) (Or.inl husome)
        refine ⟨{ initial_nodes := a :: rest, read_from_replicas := b.read_from_replicas,
                  username := b.username.or none,
                  password := b.password.or none }, ?_, ?_⟩
        · simp only [RedisRev.ClusterClientBuilder.build, hn]
          simp [RedisRev.buildGo, hau, credStep, husome, hbp, htail]
        · simp [hus]

/-- Counterexample to C6 as stated: the two nodes disagree on their
embedded passwords and an explicit password override is set, yet `build`
fails — with the username inconsistency error — because the embedded
usernames also disagree and the override does not silence that check. -/
theorem c6_counterexample :
    ((RedisRev.ClusterClientBuilder.new [.ok nU1P1, .ok nU2P2]).setPassword
        "override").build = .error differentUsernameError := rfl

/-- Witness for C6 at concrete inputs covering both sides: nodes with
differing passwords and equal usernames under a password override resolve
the password to the override, and nodes with differing usernames and equal
passwords under a username override resolve the username to the
override. -/
theorem c6_witness :
    (∃ c, ((RedisRev.ClusterClientBuilder.new [.ok nU1P, .ok nU1Q]).setPassword
        "override").build = .ok c ∧ c.password = some "override") ∧
      ∃ c, ((RedisRev.ClusterClientBuilder.new [.ok nU1P, .ok nU2P]).setUsername
        "adminuser").build = .ok c ∧ c.username = some "adminuser" := by
  constructor
  · exact (c6_explicit_override_wins
        ((RedisRev.ClusterClientBuilder.new [.ok nU1P, .ok nU1Q]).setPassword "override")
        [nU1P, nU1Q] rfl (by decide)).1 "override" rfl (Or.inr (by decide))
  · exact (c6_explicit_override_wins
        ((RedisRev.ClusterClientBuilder.new [.ok nU1P, .ok nU2P]).setUsername "adminuser")
        [nU1P, nU2P] rfl (by decide)).2 "adminuser" rfl (Or.inr (by decide))

/-- C1 (amended): on a configuration built with no explicit username or
password override, the `Clone` implementation — which re-runs the full
build over the stored node list — always succeeds and yields a
configuration with identical resolved username, resolved password and node
list; when the original was built with an explicit override the re-run
drops that override, so duplication can fail (the source unwraps, i.e.
panics) or resolve different credentials. -/
theorem c1_clone_of_no_override_ok (b : RedisRev.ClusterClientBuilder)
    (c : RedisRev.ClusterClient)
    (hpw : b.password = none) (hus : b.username = none) (hb : b.build = .ok c) :
    ∃ c2, c.cloneResult = .ok c2 ∧ c2.username = c.username ∧
      c2.password = c.password ∧ c2.initial_nodes = c.initial_nodes := by
  cases hn : b.initial_nodes with
  | error e =>
    simp only [RedisRev.ClusterClientBuilder.build, hn] at hb
    exact absurd hb (by simp)
  | ok L =>
    simp only [RedisRev.ClusterClientBuilder.build, hn] at hb
    split at hb
    · exact absurd hb (by simp)
    next ns p u hgo =>
      rw [hpw, hus] at hgo
      obtain ⟨hns, -⟩ := RedisRev.buildGo_ok_nodes L 0 none none ns p u hgo
      subst hns
      obtain rfl := (Except.ok.injEq _ _).mp hb
      refine ⟨{ initial_nodes := ns, read_from_replicas := false,
                username := u, password := p }, ?_, ?_, ?_, rfl⟩
      · simp only [RedisRev.ClusterClient.cloneResult, RedisRev.ClusterClient.new,
          RedisRev.ClusterClientBuilder.new, RedisRev.ClusterClientBuilder.build,
          collectResults_map_ok, hgo]
        simp
      · simp [hus]
      · simp [hpw]

/-- Counterexample to C1 as stated: a configuration successfully built
with an explicit password override over nodes whose embedded passwords
disagree; `Clone` re-runs the build without the override, which fails with
the password inconsistency error — the `unwrap` in the source turns this
into a panic — so duplication neither always succeeds nor preserves the
resolved password. -/
theorem c1_counterexample :
    ((RedisRev.ClusterClientBuilder.new [.ok nPw1, .ok nPw2]).setPassword "secret").build
        = .ok builtSecretPair ∧
      builtSecretPair.cloneResult = .error differentPasswordError :=
  ⟨rfl, rfl⟩

/-- Witness for C1 at a concrete input: a configuration built with no
overrides over two nodes embedding the same password. -/
theorem c1_witness :
    ∃ c2, builtPw1Pair.cloneResult = .ok c2 ∧ c2.username = builtPw1Pair.username ∧
      c2.password = builtPw1Pair.password ∧
      c2.initial_nodes = builtPw1Pair.initial_nodes :=
  c1_clone_of_no_override_ok (RedisRev.ClusterClientBuilder.new [.ok nPw1, .ok nPw1b])
    builtPw1Pair rfl rfl rfl

/-- C3 (amended): in the TLS revision the cross-node TLS-material check
considers only `TcpTls` nodes, and a routable node without TLS fields is
indeed skipped without affecting the running candidates (first conjunct);
but the running candidate is seeded only at overall list index 0, so a
`TcpTls` node at a later index has its material compared against the
still-absent candidate instead of being adopted: present trusted-CA
material there fails the build with the `ca_cert` inconsistency error
(second conjunct), and such a list builds successfully exactly in the
sense that every `TcpTls` node must carry absent material (third
conjunct). -/
theorem c3_tls_check_seeds_only_at_index_zero :
    (∀ (P U : String) (i : Nat) (cip ciu : Option String) (cic : Option Certificate)
        (cii : Option RedisIdentity) (a : ConnectionInfo) (rest : List ConnectionInfo),
        a.addr.isUnixAddr = false → tlsCaOfAddr a.addr = none →
        tlsIdentityOfAddr a.addr = none →
        TlsRev.buildGo (some P) (some U) none none (i + 1) cip ciu cic cii (a :: rest) =
          Except.map (fun s => (a :: s.1, s.2))
            (TlsRev.buildGo (some P) (some U) none none (i + 1 + 1) cip ciu cic cii rest)) ∧
      (∀ (P U : String) (i : Nat) (cip ciu : Option String) (cii : Option RedisIdentity)
          (a : ConnectionInfo) (rest : List ConnectionInfo) (cert : Certificate),
          a.addr.isUnixAddr = false → tlsCaOfAddr a.addr = some (some cert) →
          TlsRev.buildGo (some P) (some U) none none (i + 1) cip ciu none cii (a :: rest) =
            .error differentCaCertError) ∧
      (∀ (P U : String) (r : Bool) (L : List ConnectionInfo),
          (∀ x ∈ L, x.addr.isUnixAddr = false) →
          (∀ x ∈ L, tlsCaOfAddr x.addr = none ∨ tlsCaOfAddr x.addr = some none) →
          (∀ x ∈ L, tlsIdentityOfAddr x.addr = none ∨ tlsIdentityOfAddr x.addr = some none) →
          TlsRev.ClusterClientBuilder.build
              { initial_nodes := .ok L, readonly := r, username := some U,
                password := some P, ca_cert := none, identity := none } =
            .ok { initial_nodes := L, readonly := r, username := some U,
                  password := some P, ca_cert := none, identity := none }) := by
  refine ⟨?_, ?_, ?_⟩
  · intro P U i cip ciu cic cii a rest h1 h2 h3
    cases hrest : TlsRev.buildGo (some P) (some U) none none (i + 1 + 1) cip ciu cic cii rest with
    | error e =>
      simp [TlsRev.buildGo, h1, h2, h3, credStep_override, tlsMaterialStep, hrest, Except.map]
    | ok r2 =>
      obtain ⟨ns, p, u, cc, ii⟩ := r2
      simp [TlsRev.buildGo, h1, h2, h3, credStep_override, tlsMaterialStep, hrest, Except.map]
  · intro P U i cip ciu cii a rest cert h1 h2
    simp [TlsRev.buildGo, h1, h2, credStep_override, tlsMaterialStep, credStep_succ]
  · intro P U r L hu hca hid
    cases L with
    | nil => rfl
    | cons a rest =>
      have hau : a.addr.isUnixAddr = false := hu a (List.mem_cons_self a rest)
      have hstepc : tlsMaterialStep false 0 (none : Option Certificate)
          (tlsCaOfAddr a.addr) differentCaCertError = .ok none := by
        rcases hca a (List.mem_cons_self a rest) with hc | hc <;>
          simp [tlsMaterialStep, hc, credStep]
      have hstepi : tlsMaterialStep false 0 (none : Option RedisIdentity)
          (tlsIdentityOfAddr a.addr) differentIdentityError = .ok none := by
        rcases hid a (List.mem_cons_self a rest) with hc | hc <;>
          simp [tlsMaterialStep, hc, credStep]
      have htail := TlsRev.tls_buildGo_tail_ok P U rest 0 none none none none
        (fun x hx => hu x (List.mem_cons_of_mem a hx))
        (fun x hx => hca x (List.mem_cons_of_mem a hx))
        (fun x hx => hid x (List.mem_cons_of_mem a hx))
      simp only [TlsRev.ClusterClientBuilder.build]
      simp [TlsRev.buildGo, hau, credStep_override, hstepc, hstepi, htail, Option.or]

/-- Counterexample to C3 as stated: the list's only secure-transport node
stands at index 1 with present trusted-CA material (so all
secure-transport nodes trivially agree), no override is set, and the
non-TLS node at index 0 was skipped without affecting the running
candidate — yet the build fails with the `ca_cert` inconsistency error
instead of adopting that material and succeeding. -/
theorem c3_counterexample :
    (TlsRev.ClusterClientBuilder.new [.ok tNodeTcp, .ok tNodeTlsCa]).build
      = .error differentCaCertError := rfl

end RedisCluster
